import Mathlib

/-!
Shallow embedding of the loan lifecycle service and the mail service of the
Inventario-Proyecto repository (`src/services/loanService.js` and
`src/services/mailService.js`), together with proofs about the claims of the
specification.

Conventions of the embedding:
* Mongoose documents become Lean structures; a `findById` result becomes an
  `Option` argument.
* JS `Date` values become `Nat` timestamps, passed in as a `now` argument.
* A thrown `Error` carrying an HTTP `status` and a message becomes a
  `ServiceError` value returned through `Except`.
* Each mutating operation returns, besides the thrown-or-returned value, the
  state of the loan and of the item documents as persisted by the operation
  (`loanAfter`, `itemAfter`), so that frame conditions can be stated.
-/

/-- The loan states used by `loanService.js`:
`'Pendiente' | 'Aprobado' | 'Rechazado' | 'Aplazado' | 'Devuelto'`. -/
inductive Estado where
  | Pendiente
  | Aprobado
  | Rechazado
  | Aplazado
  | Devuelto
deriving Repr, DecidableEq

/-- An inventory item document: available units and total owned units. -/
structure Item where
  nombre : String := ""
  cantidad_disponible : Int
  cantidad_total_stock : Int
deriving Repr, DecidableEq

/-- A loan document, as manipulated by `loanService.js`. -/
structure Loan where
  usuario : Nat
  cantidad_prestamo : Int
  estado : Estado
  fecha_prestamo : Option Nat := none
  fecha_estimada : Option Nat := none
  fecha_retorno : Option Nat := none
  createdAt : Nat := 0
deriving Repr, DecidableEq

/-- An error thrown by the service layer: an HTTP-like status plus a message,
mirroring `Object.assign(new Error(msg), { status })`. -/
structure ServiceError where
  status : Nat
  message : String
deriving Repr, DecidableEq

def errLoanNotFound : ServiceError := ⟨404, "Préstamo no encontrado"⟩
def errItemNotFound : ServiceError := ⟨404, "Ítem no encontrado"⟩
def errNotPendiente : ServiceError := ⟨400, "El préstamo no está pendiente"⟩
def errFechaEstimadaRequired : ServiceError := ⟨400, "La fecha estimada es obligatoria"⟩
def errInsufficientStock : ServiceError := ⟨400, "Stock insuficiente"⟩
def errCannotReturn : ServiceError := ⟨400, "El préstamo no se puede devolver"⟩
def errCannotDelay : ServiceError := ⟨400, "El préstamo no puede ser aplazado"⟩
def errNuevaFechaRequired : ServiceError := ⟨400, "La nueva fecha es obligatoria"⟩
def errForbidden : ServiceError := ⟨403, "No autorizado"⟩

/-- The `InvalidState` bucket of the specification's error taxonomy: an illegal
current state for the attempted transition. -/
def ServiceError.isInvalidState (e : ServiceError) : Bool :=
  e == errNotPendiente || e == errCannotReturn || e == errCannotDelay

/-- The `ValidationError` bucket of the specification's error taxonomy: a
required field is missing. -/
def ServiceError.isValidationError (e : ServiceError) : Bool :=
  e == errFechaEstimadaRequired || e == errNuevaFechaRequired

/-- The outcome of a mutating loan operation: the value returned to the caller
(or the error thrown), the persisted loan document afterwards, and the
persisted item document afterwards. -/
structure OpOut where
  result : Except ServiceError Loan
  loanAfter : Option Loan
  itemAfter : Option Item
deriving Repr

/-- Lines 76-84 of `approveLoan`: starting from the in-memory approved loan and
the in-memory item, decrement `cantidad_disponible` by `cantidad_prestamo`; if
the result is negative, revert the loan to `Pendiente` with both dates cleared,
persist the reverted loan, do NOT save the item, and throw `Stock insuficiente`;
otherwise save the decremented item and return the approved loan. The third
component is the item as saved by this phase (`none` when the item was not
saved). -/
def approveStockPhase (loan : Loan) (item : Item) :
    Except ServiceError Loan × Loan × Option Item :=
  let item' := { item with
    cantidad_disponible := item.cantidad_disponible - loan.cantidad_prestamo }
  if item'.cantidad_disponible < 0 then
    let reverted := { loan with
      estado := Estado.Pendiente, fecha_prestamo := none, fecha_estimada := none }
    (Except.error errInsufficientStock, reverted, none)
  else
    (Except.ok loan, loan, some item')

/-- `approveLoan(loanId, fechaEstimada)` of `loanService.js`, lines 50-121.
`loanQ` and `itemQ` are the `findById` results for the loan and for its item,
`now` is `new Date()`. The notification dispatch (`setImmediate` block) has no
effect on the loan or item state and is not modelled. -/
def approveLoan (loanQ : Option Loan) (itemQ : Option Item)
    (fechaEstimada : Option Nat) (now : Nat) : OpOut :=
  match loanQ with
  | none => ⟨Except.error errLoanNotFound, none, itemQ⟩
  | some loan =>
    if loan.estado ≠ Estado.Pendiente then
      ⟨Except.error errNotPendiente, some loan, itemQ⟩
    else match fechaEstimada with
    | none => ⟨Except.error errFechaEstimadaRequired, some loan, itemQ⟩
    | some fe =>
      match itemQ with
      | none => ⟨Except.error errItemNotFound, some loan, none⟩
      | some item =>
        if loan.cantidad_prestamo > item.cantidad_disponible then
          ⟨Except.error errInsufficientStock, some loan, some item⟩
        else
          let approved := { loan with
            estado := Estado.Aprobado,
            fecha_prestamo := some now,
            fecha_estimada := some fe }
          let (res, loanSaved, itemSaved) := approveStockPhase approved item
          ⟨res, some loanSaved, some (itemSaved.getD item)⟩

/-- `returnLoan(loanId)` of `loanService.js`, lines 138-197. -/
def returnLoan (loanQ : Option Loan) (itemQ : Option Item) (now : Nat) : OpOut :=
  match loanQ with
  | none => ⟨Except.error errLoanNotFound, none, itemQ⟩
  | some loan =>
    if loan.estado ≠ Estado.Aprobado ∧ loan.estado ≠ Estado.Aplazado then
      ⟨Except.error errCannotReturn, some loan, itemQ⟩
    else match itemQ with
    | none => ⟨Except.error errItemNotFound, some loan, none⟩
    | some item =>
      let returned := { loan with
        estado := Estado.Devuelto, fecha_retorno := some now }
      let raw := item.cantidad_disponible + loan.cantidad_prestamo
      let newDisp :=
        if raw > item.cantidad_total_stock then item.cantidad_total_stock else raw
      ⟨Except.ok returned, some returned,
        some { item with cantidad_disponible := newDisp }⟩

/-- `delayLoan(loanId, nuevaFecha)` of `loanService.js`, lines 199-236. The
function never reads or writes any `Item`, so the item state is passed through
unchanged. Source order of checks: loan found, then state, then date. -/
def delayLoan (loanQ : Option Loan) (nuevaFecha : Option Nat)
    (itemQ : Option Item) : OpOut :=
  match loanQ with
  | none => ⟨Except.error errLoanNotFound, none, itemQ⟩
  | some loan =>
    if loan.estado ≠ Estado.Aprobado ∧ loan.estado ≠ Estado.Aplazado then
      ⟨Except.error errCannotDelay, some loan, itemQ⟩
    else match nuevaFecha with
    | none => ⟨Except.error errNuevaFechaRequired, some loan, itemQ⟩
    | some f =>
      let delayed := { loan with estado := Estado.Aplazado, fecha_estimada := some f }
      ⟨Except.ok delayed, some delayed, itemQ⟩

/-- `deleteLoan(loanId)` of `loanService.js`, lines 238-247: a hard
`findByIdAndDelete` with no state check and no item access; the item state is
passed through unchanged. -/
def deleteLoan (loanQ : Option Loan) (itemQ : Option Item) : OpOut :=
  match loanQ with
  | none => ⟨Except.error errLoanNotFound, none, itemQ⟩
  | some loan => ⟨Except.ok loan, none, itemQ⟩

/-- The caller identity `{ rol, _id }` used by the read operations. -/
structure Caller where
  rol : String
  uid : Nat
deriving Repr, DecidableEq

/-- The Mongo query built by `listLoans`: non-admins are restricted to
`usuario = _id`, and an optional `estado` filter narrows results. -/
def matchesQuery (caller : Caller) (filtroEstado : Option Estado) (l : Loan) : Bool :=
  (if caller.rol == "Admin" then true else l.usuario == caller.uid) &&
    (match filtroEstado with
     | none => true
     | some e => l.estado == e)

/-- The sort order `.sort({ createdAt: -1 })`: newest created first. -/
def createdDesc (a b : Loan) : Prop := b.createdAt ≤ a.createdAt

instance : DecidableRel createdDesc := fun a b =>
  inferInstanceAs (Decidable (b.createdAt ≤ a.createdAt))

instance : IsTotal Loan createdDesc :=
  ⟨fun a b => (Nat.le_total b.createdAt a.createdAt).imp id id⟩

instance : IsTrans Loan createdDesc :=
  ⟨fun _ _ _ h1 h2 => Nat.le_trans h2 h1⟩

/-- `listLoans({rol, _id}, filtros)` of `loanService.js`, lines 249-260, over a
datastore holding the list `db` of loans. -/
def listLoans (caller : Caller) (filtroEstado : Option Estado)
    (db : List Loan) : List Loan :=
  List.insertionSort createdDesc (db.filter (matchesQuery caller filtroEstado))

/-- `getLoanById({rol, _id}, loanId)` of `loanService.js`, lines 262-269. -/
def getLoanById (caller : Caller) (loanQ : Option Loan) :
    Except ServiceError Loan :=
  match loanQ with
  | none => Except.error errLoanNotFound
  | some loan =>
    if caller.rol ≠ "Admin" ∧ loan.usuario ≠ caller.uid then
      Except.error errForbidden
    else Except.ok loan

/-- One step of the stock-affecting lifecycle: an `approveLoan` or a
`returnLoan` call, with the loan document, the date arguments and the clock
chosen arbitrarily at each step. -/
inductive LoanOp where
  | approve (loanQ : Option Loan) (fechaEstimada : Option Nat) (now : Nat)
  | ret (loanQ : Option Loan) (now : Nat)
deriving Repr

/-- The item state persisted after running one lifecycle operation against the
item currently in the store. -/
def applyOp (itemQ : Option Item) (op : LoanOp) : Option Item :=
  match op with
  | LoanOp.approve loanQ fe now => (approveLoan loanQ itemQ fe now).itemAfter
  | LoanOp.ret loanQ now => (returnLoan loanQ itemQ now).itemAfter

/-- The item state persisted after a finite sequence of lifecycle operations. -/
def applyOps (itemQ : Option Item) (ops : List LoanOp) : Option Item :=
  ops.foldl applyOp itemQ

/-- The item invariant of the specification:
`0 ≤ cantidad_disponible ≤ cantidad_total_stock`. -/
def Item.inv (i : Item) : Prop :=
  0 ≤ i.cantidad_disponible ∧ i.cantidad_disponible ≤ i.cantidad_total_stock

instance (i : Item) : Decidable i.inv :=
  inferInstanceAs (Decidable (_ ∧ _))

/-- Modelled from the spec: the Loan schema (`src/models/Loan.js`, not included
under `src/`) fixes `cantidad_prestamo` as "requested units, integer > 0, fixed
at creation"; an operation is well-formed when the loan document it acts on
satisfies that schema constraint. -/
def LoanOp.WF : LoanOp → Prop
  | LoanOp.approve loanQ _ _ => ∀ l ∈ loanQ, 0 < l.cantidad_prestamo
  | LoanOp.ret loanQ _ => ∀ l ∈ loanQ, 0 < l.cantidad_prestamo

/-!
Embedding of `mailService.js`. An email send attempt against the Resend API can
return data, return an error object, or throw; a thrown error may carry a
`statusCode` and a `code`. The environment `env : Nat → ApiOutcome` gives the
outcome of the n-th API call performed by one `sendEmail` invocation.
-/

/-- The outcome of one `resend.emails.send` call: a message id, an `error`
object in the response (which `sendEmail` converts into a thrown
`Resend error: ...`), or a thrown exception with optional `statusCode` and
`code` fields. -/
inductive ApiOutcome where
  | ok (id : String)
  | apiErr (msg : String)
  | thrown (statusCode : Option Nat) (code : Option String) (msg : String)
deriving Repr, DecidableEq

/-- The retry condition of `sendEmail`, line 94: the caught error has
`statusCode === 429` or `code === 'ETIMEDOUT'`. Response-level `error` objects
are rethrown as plain `Error`s without those fields and are never retried. -/
def ApiOutcome.retryable : ApiOutcome → Bool
  | ApiOutcome.thrown sc c _ => sc == some 429 || c == some "ETIMEDOUT"
  | _ => false

/-- The object `sendEmail` resolves with: `{success: true, messageId}` on
success, `{success: false, error}` on failure. -/
structure EmailResult where
  success : Bool
  messageId : Option String := none
  error : Option String := none
deriving Repr, DecidableEq

/-- A trace of one `sendEmail` invocation: the resolved result, the number of
API send attempts performed, and the list of backoff sleeps (in milliseconds)
performed between attempts. -/
structure SendTrace where
  result : EmailResult
  attempts : Nat
  delays : List Nat
deriving Repr, DecidableEq

/-- A prefix test on character lists, auxiliary to `strIncludes`. -/
def listPrefix : List Char → List Char → Bool
  | [], _ => true
  | _ :: _, [] => false
  | a :: as, b :: bs => a == b && listPrefix as bs

/-- An occurrence test on character lists, auxiliary to `strIncludes`. -/
def listInfix (pat : List Char) : List Char → Bool
  | [] => pat.isEmpty
  | b :: bs => listPrefix pat (b :: bs) || listInfix pat bs

/-- JS `String.prototype.includes`: `pat` occurs contiguously in `s` (the empty
pattern occurs in every string). -/
def strIncludes (s pat : String) : Bool := listInfix pat.toList s.toList

/-- The attempt loop of `sendEmail` (lines 70-104): perform one API call; on a
response-level error fail with `Resend error: ...`; on a thrown retryable error
with retries left, sleep 2000 ms and recurse with one retry fewer; otherwise
fail with the error's message. -/
def sendEmailGo (env : Nat → ApiOutcome) (attempt : Nat) (retries : Nat) :
    SendTrace :=
  match env attempt with
  | ApiOutcome.ok id => ⟨⟨true, some id, none⟩, 1, []⟩
  | ApiOutcome.apiErr msg =>
    ⟨⟨false, none, some ("Resend error: " ++ msg)⟩, 1, []⟩
  | ApiOutcome.thrown sc c msg =>
    if (ApiOutcome.thrown sc c msg).retryable then
      match retries with
      | 0 => ⟨⟨false, none, some msg⟩, 1, []⟩
      | r + 1 =>
        let t := sendEmailGo env (attempt + 1) r
        ⟨t.result, t.attempts + 1, 2000 :: t.delays⟩
    else ⟨⟨false, none, some msg⟩, 1, []⟩

/-- `sendEmail({to, subject, text, html}, retries)` of `mailService.js`, lines
45-106. `to` is the recipient (`none` for a missing address), `hasApiKey`
models whether `RESEND_API_KEY` is configured. Both validation failures are
thrown `Error`s without `statusCode`/`code`, caught by the same handler, and
produce a failure result with zero API attempts. The JS default is
`retries = 2`. -/
def sendEmail (toAddr : Option String) (hasApiKey : Bool)
    (env : Nat → ApiOutcome) (retries : Nat) : SendTrace :=
  match toAddr with
  | none => ⟨⟨false, none, some "Email inválido: undefined"⟩, 0, []⟩
  | some s =>
    if !(strIncludes s "@") then
      ⟨⟨false, none, some ("Email inválido: " ++ s)⟩, 0, []⟩
    else if !hasApiKey then
      ⟨⟨false, none, some "RESEND_API_KEY no configurada"⟩, 0, []⟩
    else
      sendEmailGo env 0 retries

/-- An administrator record as read by `notifyAdminsNewLoan`; only the email
field matters there. -/
structure Admin where
  email : Option String
deriving Repr, DecidableEq

/-- The filter of `notifyAdminsNewLoan`, lines 360-372: keep an admin only if
its email exists, contains `'@'`, and contains neither `'demo.com'` nor
`'test.com'`. -/
def validAdmin (a : Admin) : Bool :=
  match a.email with
  | none => false
  | some e =>
    strIncludes e "@" && !(strIncludes e "demo.com") && !(strIncludes e "test.com")

/-- The object `notifyAdminsNewLoan` resolves with. -/
structure NotifyResult where
  success : Bool
  error : Option String := none
  successful : Option Nat := none
  failed : Option Nat := none
deriving Repr, DecidableEq

/-- `notifyAdminsNewLoan(user, loan, item, aula)` of `mailService.js`, lines
297-396, over the list `admins` of `User.find({rol: 'Admin'})` results.
`sendOk e` tells whether the `sendEmail` dispatched to address `e` reports
success. Returns the resolved result together with the list of addresses
actually dispatched to. -/
def notifyAdminsNewLoan (admins : List Admin) (sendOk : String → Bool) :
    NotifyResult × List String :=
  if admins.isEmpty then
    (⟨false, some "No admins found", none, none⟩, [])
  else
    let validAdmins := admins.filter validAdmin
    if validAdmins.isEmpty then
      (⟨false, some "No valid admin emails", none, none⟩, [])
    else
      let recipients := validAdmins.map (fun a => a.email.getD "")
      let successful := (recipients.filter sendOk).length
      (⟨decide (successful > 0), none, some successful,
        some (recipients.length - successful)⟩, recipients)

/-!
Concrete documents used by scenario conjuncts, counterexamples and witnesses.
-/

/-- The scenario item of the specification: `{disponible: 3, total: 5}`. -/
def demoItem : Item := { nombre := "", cantidad_disponible := 3, cantidad_total_stock := 5 }

/-- The scenario loan of the specification: quantity 2, state `Pendiente`. -/
def demoLoan : Loan := { usuario := 0, cantidad_prestamo := 2, estado := Estado.Pendiente }

/-- A pending loan used to exercise `delayLoan` on a non-deferrable state. -/
def pendingDemoLoan : Loan := { usuario := 0, cantidad_prestamo := 1, estado := Estado.Pendiente }

/-- C2: approving a pending loan with a date and sufficient stock succeeds,
setting `estado = Aprobado`, `fecha_prestamo = now`, `fecha_estimada` to the
given date, and decreasing the item's availability by exactly the loan
quantity; on the scenario item `{disponible: 3, total: 5}` with a quantity-2
loan, Approve yields `disponible = 1` and a subsequent Return yields
`disponible = 3`. -/
theorem c2_approve_success (loan : Loan) (item : Item) (fe now : Nat)
    (hst : loan.estado = Estado.Pendiente)
    (hq : loan.cantidad_prestamo ≤ item.cantidad_disponible) :
    approveLoan (some loan) (some item) (some fe) now =
      { result := Except.ok { loan with
          estado := Estado.Aprobado,
          fecha_prestamo := some now,
          fecha_estimada := some fe },
        loanAfter := some { loan with
          estado := Estado.Aprobado,
          fecha_prestamo := some now,
          fecha_estimada := some fe },
        itemAfter := some { item with
          cantidad_disponible :=
            item.cantidad_disponible - loan.cantidad_prestamo } } ∧
    (approveLoan (some demoLoan) (some demoItem) (some 7) 5).itemAfter =
      some { demoItem with cantidad_disponible := 1 } ∧
    (returnLoan (approveLoan (some demoLoan) (some demoItem) (some 7) 5).loanAfter
        (approveLoan (some demoLoan) (some demoItem) (some 7) 5).itemAfter 9).itemAfter =
      some { demoItem with cantidad_disponible := 3 } := by
  have h2 : ¬ loan.cantidad_prestamo > item.cantidad_disponible := not_lt.mpr hq
  have h3 : ¬ item.cantidad_disponible - loan.cantidad_prestamo < 0 := by omega
  refine ⟨?_, by decide, by decide⟩
  simp [approveLoan, approveStockPhase, hst, h2, h3]

/-- C2 witness: the general part of `c2_approve_success` evaluated on the
scenario documents. -/
theorem c2_approve_success_witness :
    approveLoan (some demoLoan) (some demoItem) (some 7) 5 =
      { result := Except.ok { demoLoan with
          estado := Estado.Aprobado,
          fecha_prestamo := some 5,
          fecha_estimada := some 7 },
        loanAfter := some { demoLoan with
          estado := Estado.Aprobado,
          fecha_prestamo := some 5,
          fecha_estimada := some 7 },
        itemAfter := some { demoItem with
          cantidad_disponible :=
            demoItem.cantidad_disponible - demoLoan.cantidad_prestamo } } :=
  (c2_approve_success demoLoan demoItem 7 5 rfl (by decide)).1

/-- C3: approving a loan that is not `Pendiente` fails with the `InvalidState`
error and changes neither the loan nor the item; approving a pending loan whose
quantity exceeds the item's availability fails with `InsufficientStock` and
changes neither the loan nor the item. -/
theorem c3_approve_failures (loan : Loan) (item : Item) :
    (loan.estado ≠ Estado.Pendiente →
      ∀ (itemQ : Option Item) (fe : Option Nat) (now : Nat),
        approveLoan (some loan) itemQ fe now =
          ⟨Except.error errNotPendiente, some loan, itemQ⟩ ∧
        errNotPendiente.isInvalidState = true) ∧
    (loan.estado = Estado.Pendiente →
      loan.cantidad_prestamo > item.cantidad_disponible →
      ∀ (fe now : Nat),
        approveLoan (some loan) (some item) (some fe) now =
          ⟨Except.error errInsufficientStock, some loan, some item⟩) := by
  constructor
  · intro hst itemQ fe now
    exact ⟨by simp [approveLoan, hst], by decide⟩
  · intro hst hq fe now
    simp [approveLoan, hst, hq]

/-- C3 witness: both failure modes of `c3_approve_failures` evaluated on
concrete documents. -/
theorem c3_approve_failures_witness :
    approveLoan (some { demoLoan with estado := Estado.Devuelto }) (some demoItem)
        (some 7) 5 =
      ⟨Except.error errNotPendiente, some { demoLoan with estado := Estado.Devuelto },
        some demoItem⟩ ∧
    approveLoan (some { demoLoan with cantidad_prestamo := 9 }) (some demoItem)
        (some 7) 5 =
      ⟨Except.error errInsufficientStock, some { demoLoan with cantidad_prestamo := 9 },
        some demoItem⟩ :=
  ⟨((c3_approve_failures { demoLoan with estado := Estado.Devuelto } demoItem).1
      (by decide) (some demoItem) (some 7) 5).1,
    (c3_approve_failures { demoLoan with cantidad_prestamo := 9 } demoItem).2
      rfl (by decide) 7 5⟩

/-- C4: in the stock phase of `approveLoan`, whenever decrementing the item's
availability by the loan quantity yields a negative value, the approval is
unwound: the loan reverts to `Pendiente` with `fecha_prestamo` and
`fecha_estimada` cleared, that reverted loan is the one persisted, the
operation fails with `InsufficientStock`, and the item is not saved; moreover
`approveLoan` as a whole never persists a negative availability when the stored
item started nonnegative. -/
theorem c4_compensation (loan : Loan) (item : Item)
    (hneg : item.cantidad_disponible - loan.cantidad_prestamo < 0) :
    approveStockPhase loan item =
      (Except.error errInsufficientStock,
        { loan with
          estado := Estado.Pendiente,
          fecha_prestamo := none,
          fecha_estimada := none },
        none) ∧
    (∀ (loanQ : Option Loan) (itemX : Item) (fe : Option Nat) (now : Nat)
        (i' : Item),
      0 ≤ itemX.cantidad_disponible →
      (approveLoan loanQ (some itemX) fe now).itemAfter = some i' →
      0 ≤ i'.cantidad_disponible) := by
  constructor
  · simp [approveStockPhase, hneg]
  · intro loanQ itemX fe now i' h0 hA
    match loanQ with
    | none =>
      simp [approveLoan] at hA
      subst hA
      omega
    | some l =>
      by_cases h1 : l.estado = Estado.Pendiente
      · match fe with
        | none =>
          simp [approveLoan, h1] at hA
          subst hA
          omega
        | some f =>
          by_cases h2 : l.cantidad_prestamo > itemX.cantidad_disponible
          · simp [approveLoan, h1, h2] at hA
            subst hA
            omega
          · by_cases h3 : itemX.cantidad_disponible - l.cantidad_prestamo < 0
            · simp [approveLoan, approveStockPhase, h1, h2, h3] at hA
              subst hA
              omega
            · simp [approveLoan, approveStockPhase, h1, h2, h3] at hA
              subst hA
              simp only [Item.mk.injEq]
              omega
      · simp [approveLoan, h1] at hA
        subst hA
        omega

/-- C4 witness: the compensation branch evaluated on a concrete loan/item pair
whose decrement would be negative. -/
theorem c4_compensation_witness :
    approveStockPhase { demoLoan with cantidad_prestamo := 9 } demoItem =
      (Except.error errInsufficientStock,
        { demoLoan with
          cantidad_prestamo := 9,
          estado := Estado.Pendiente,
          fecha_prestamo := none,
          fecha_estimada := none },
        none) :=
  (c4_compensation { demoLoan with cantidad_prestamo := 9 } demoItem (by decide)).1

/-- C5: returning a loan in state `Aprobado` or `Aplazado` succeeds, setting
`estado = Devuelto` and `fecha_retorno = now`, and raising the item's
availability by the loan quantity clamped at `cantidad_total_stock`; returning
a loan in state `Pendiente`, `Rechazado` or `Devuelto` fails with the
`InvalidState` error and changes neither the loan nor the item. -/
theorem c5_return_spec (loan : Loan) (item : Item) (now : Nat) :
    (loan.estado = Estado.Aprobado ∨ loan.estado = Estado.Aplazado →
      returnLoan (some loan) (some item) now =
        ⟨Except.ok { loan with estado := Estado.Devuelto, fecha_retorno := some now },
          some { loan with estado := Estado.Devuelto, fecha_retorno := some now },
          some { item with
            cantidad_disponible :=
              min (item.cantidad_disponible + loan.cantidad_prestamo)
                item.cantidad_total_stock }⟩) ∧
    (loan.estado = Estado.Pendiente ∨ loan.estado = Estado.Rechazado ∨
        loan.estado = Estado.Devuelto →
      ∀ itemQ : Option Item,
        returnLoan (some loan) itemQ now =
          ⟨Except.error errCannotReturn, some loan, itemQ⟩ ∧
        errCannotReturn.isInvalidState = true) := by
  constructor
  · intro hst
    have h1 : ¬ (loan.estado ≠ Estado.Aprobado ∧ loan.estado ≠ Estado.Aplazado) := by
      rcases hst with h | h <;> simp [h]
    simp only [returnLoan, if_neg h1]
    have hmin :
        (if item.cantidad_disponible + loan.cantidad_prestamo >
            item.cantidad_total_stock
          then item.cantidad_total_stock
          else item.cantidad_disponible + loan.cantidad_prestamo) =
          min (item.cantidad_disponible + loan.cantidad_prestamo)
            item.cantidad_total_stock := by
      rw [min_def]
      split <;> split <;> omega
    rw [hmin]
  · intro hst itemQ
    have h1 : loan.estado ≠ Estado.Aprobado ∧ loan.estado ≠ Estado.Aplazado := by
      rcases hst with h | h | h <;> simp [h]
    exact ⟨by simp [returnLoan, h1], by decide⟩

/-- C5 witness: both branches of `c5_return_spec` evaluated on concrete
documents. -/
theorem c5_return_spec_witness :
    returnLoan (some { demoLoan with estado := Estado.Aprobado }) (some demoItem) 9 =
      ⟨Except.ok { demoLoan with estado := Estado.Devuelto, fecha_retorno := some 9 },
        some { demoLoan with estado := Estado.Devuelto, fecha_retorno := some 9 },
        some { demoItem with
          cantidad_disponible :=
            min (demoItem.cantidad_disponible + demoLoan.cantidad_prestamo)
              demoItem.cantidad_total_stock }⟩ ∧
    returnLoan (some pendingDemoLoan) (some demoItem) 9 =
      ⟨Except.error errCannotReturn, some pendingDemoLoan, some demoItem⟩ :=
  ⟨(c5_return_spec { demoLoan with estado := Estado.Aprobado } demoItem 9).1
      (Or.inl rfl),
    ((c5_return_spec pendingDemoLoan demoItem 9).2 (Or.inl rfl) (some demoItem)).1⟩

/-- C6 counterexample: on an existing loan in state `Pendiente`, `delayLoan`
with no new date fails with the `InvalidState` error
(`El préstamo no puede ser aplazado`), not with the `ValidationError`
(`La nueva fecha es obligatoria`), because the state check precedes the date
check. -/
theorem c6_delay_counterexample :
    (delayLoan (some pendingDemoLoan) none none).result =
      Except.error errCannotDelay ∧
    errCannotDelay.isValidationError = false ∧
    errCannotDelay ≠ errNuevaFechaRequired :=
  ⟨rfl, by decide, by decide⟩

/-- C6 amended: on an existing loan in state `Aprobado` or `Aplazado`,
`delayLoan` with no new date fails with `ValidationError`; on a loan in any
other state it fails with `InvalidState` regardless of the date argument; with
a date, on an `Aprobado` loan it succeeds, sets `estado = Aplazado`, updates
`fecha_estimada` to the given date, and leaves the item state unchanged in all
cases. -/
theorem c6_delay_spec (loan : Loan) (itemQ : Option Item) :
    (loan.estado = Estado.Aprobado ∨ loan.estado = Estado.Aplazado →
      delayLoan (some loan) none itemQ =
        ⟨Except.error errNuevaFechaRequired, some loan, itemQ⟩ ∧
      errNuevaFechaRequired.isValidationError = true) ∧
    (loan.estado ≠ Estado.Aprobado ∧ loan.estado ≠ Estado.Aplazado →
      ∀ nuevaFecha : Option Nat,
        delayLoan (some loan) nuevaFecha itemQ =
          ⟨Except.error errCannotDelay, some loan, itemQ⟩ ∧
        errCannotDelay.isInvalidState = true) ∧
    (loan.estado = Estado.Aprobado →
      ∀ f : Nat,
        delayLoan (some loan) (some f) itemQ =
          ⟨Except.ok { loan with estado := Estado.Aplazado, fecha_estimada := some f },
            some { loan with estado := Estado.Aplazado, fecha_estimada := some f },
            itemQ⟩) := by
  refine ⟨?_, ?_, ?_⟩
  · intro hst
    have h1 : ¬ (loan.estado ≠ Estado.Aprobado ∧ loan.estado ≠ Estado.Aplazado) := by
      rcases hst with h | h <;> simp [h]
    exact ⟨by simp [delayLoan, h1], by decide⟩
  · intro h1 nuevaFecha
    exact ⟨by simp [delayLoan, h1.1, h1.2], by decide⟩
  · intro hst f
    have h1 : ¬ (loan.estado ≠ Estado.Aprobado ∧ loan.estado ≠ Estado.Aplazado) := by
      simp [hst]
    simp [delayLoan, h1]

/-- C6 witness: the three branches of `c6_delay_spec` evaluated on concrete
loans. -/
theorem c6_delay_spec_witness :
    delayLoan (some { demoLoan with estado := Estado.Aprobado }) none (some demoItem) =
      ⟨Except.error errNuevaFechaRequired,
        some { demoLoan with estado := Estado.Aprobado }, some demoItem⟩ ∧
    delayLoan (some pendingDemoLoan) (some 7) (some demoItem) =
      ⟨Except.error errCannotDelay, some pendingDemoLoan, some demoItem⟩ ∧
    delayLoan (some { demoLoan with estado := Estado.Aprobado }) (some 7)
        (some demoItem) =
      ⟨Except.ok { demoLoan with estado := Estado.Aplazado, fecha_estimada := some 7 },
        some { demoLoan with estado := Estado.Aplazado, fecha_estimada := some 7 },
        some demoItem⟩ :=
  ⟨((c6_delay_spec { demoLoan with estado := Estado.Aprobado } (some demoItem)).1
      (Or.inl rfl)).1,
    ((c6_delay_spec pendingDemoLoan (some demoItem)).2.1 (by decide) (some 7)).1,
    (c6_delay_spec { demoLoan with estado := Estado.Aprobado } (some demoItem)).2.2
      rfl 7⟩

/-- C8: `deleteLoan` leaves the item state untouched in every case; when the
loan exists (whatever its state) it removes the loan record and returns it
without touching any item, and it fails, with `NotFound`, exactly when no loan
with the given id exists. -/
theorem c8_delete_frame (loanQ : Option Loan) (itemQ : Option Item) :
    (deleteLoan loanQ itemQ).itemAfter = itemQ ∧
    (∀ loan : Loan, loanQ = some loan →
      deleteLoan loanQ itemQ = ⟨Except.ok loan, none, itemQ⟩) ∧
    (loanQ = none →
      deleteLoan loanQ itemQ = ⟨Except.error errLoanNotFound, none, itemQ⟩ ∧
      errLoanNotFound.status = 404) := by
  refine ⟨?_, ?_, ?_⟩
  · cases loanQ <;> rfl
  · intro loan h
    subst h
    rfl
  · intro h
    subst h
    exact ⟨rfl, rfl⟩

/-- C8 witness: deleting an existing approved loan and deleting a missing loan,
on concrete documents. -/
theorem c8_delete_frame_witness :
    deleteLoan (some { demoLoan with estado := Estado.Aprobado }) (some demoItem) =
      ⟨Except.ok { demoLoan with estado := Estado.Aprobado }, none, some demoItem⟩ ∧
    deleteLoan none (some demoItem) =
      ⟨Except.error errLoanNotFound, none, some demoItem⟩ :=
  ⟨(c8_delete_frame (some { demoLoan with estado := Estado.Aprobado })
        (some demoItem)).2.1 _ rfl,
    ((c8_delete_frame none (some demoItem)).2.2 rfl).1⟩

/-- Concrete loans used by the C7 witness. -/
def ownLoan : Loan := { usuario := 1, cantidad_prestamo := 1, estado := Estado.Pendiente, createdAt := 10 }

/-- A loan belonging to a different user, used by the C7 witness. -/
def foreignLoan : Loan := { usuario := 2, cantidad_prestamo := 1, estado := Estado.Pendiente, createdAt := 20 }

/-- C7: for a non-admin caller, `listLoans` returns exactly the caller's own
loans (narrowed by the optional `estado` filter), sorted newest-created-first;
`getLoanById` fails with `Forbidden` for a non-admin on another user's loan,
and returns the loan to its owner or to any admin. -/
theorem c7_access_policy (caller : Caller) (filtroEstado : Option Estado)
    (db : List Loan) (loan : Loan) (hna : caller.rol ≠ "Admin") :
    (∀ l ∈ listLoans caller filtroEstado db, l.usuario = caller.uid) ∧
    (∀ l : Loan, l ∈ listLoans caller filtroEstado db ↔
      l ∈ db ∧ l.usuario = caller.uid ∧ ∀ e ∈ filtroEstado, l.estado = e) ∧
    List.Sorted createdDesc (listLoans caller filtroEstado db) ∧
    (loan.usuario ≠ caller.uid →
      getLoanById caller (some loan) = Except.error errForbidden ∧
      errForbidden.status = 403) ∧
    (loan.usuario = caller.uid → getLoanById caller (some loan) = Except.ok loan) ∧
    (∀ adm : Caller, adm.rol = "Admin" → getLoanById adm (some loan) = Except.ok loan) := by
  have hb : (caller.rol == "Admin") = false := beq_eq_false_iff_ne.mpr hna
  have hmem : ∀ l : Loan, l ∈ listLoans caller filtroEstado db ↔
      l ∈ db ∧ l.usuario = caller.uid ∧ ∀ e ∈ filtroEstado, l.estado = e := by
    intro l
    cases filtroEstado with
    | none =>
      simp [listLoans, matchesQuery, List.mem_filter, hb]
    | some e =>
      simp [listLoans, matchesQuery, List.mem_filter, hb]
  refine ⟨fun l hl => ((hmem l).mp hl).2.1, hmem, ?_, ?_, ?_, ?_⟩
  · exact List.sorted_insertionSort createdDesc _
  · intro hother
    exact ⟨by simp [getLoanById, hna, hother], rfl⟩
  · intro hown
    simp [getLoanById, hown]
  · intro adm hadm
    simp [getLoanById, hadm]

/-- C7 witness: the `getLoanById` clauses of `c7_access_policy` evaluated on a
concrete non-admin caller, the owner, and an admin. -/
theorem c7_access_policy_witness :
    getLoanById ⟨"User", 1⟩ (some foreignLoan) = Except.error errForbidden ∧
    getLoanById ⟨"User", 1⟩ (some ownLoan) = Except.ok ownLoan ∧
    getLoanById ⟨"Admin", 3⟩ (some foreignLoan) = Except.ok foreignLoan :=
  ⟨((c7_access_policy ⟨"User", 1⟩ none [] foreignLoan (by decide)).2.2.2.1
      (by decide)).1,
    (c7_access_policy ⟨"User", 1⟩ none [] ownLoan (by decide)).2.2.2.2.1 rfl,
    (c7_access_policy ⟨"User", 1⟩ none [] foreignLoan (by decide)).2.2.2.2.2
      ⟨"Admin", 3⟩ rfl⟩

/-- One lifecycle step preserves the item invariant, provided the loan document
involved satisfies the schema constraint `cantidad_prestamo > 0`. -/
theorem applyOp_inv (itemQ : Option Item) (op : LoanOp) (hwf : op.WF)
    (hinv : ∀ i ∈ itemQ, i.inv) : ∀ i' ∈ applyOp itemQ op, i'.inv := by
  cases op with
  | approve loanQ fe now =>
    cases loanQ with
    | none => simpa [applyOp, approveLoan] using hinv
    | some loan =>
      have hq : 0 < loan.cantidad_prestamo := hwf loan rfl
      cases itemQ with
      | none =>
        intro i' hi'
        by_cases h1 : loan.estado = Estado.Pendiente
        · cases fe <;> simp [applyOp, approveLoan, h1] at hi'
        · simp [applyOp, approveLoan, h1] at hi'
      | some item =>
        have hitem : item.inv := hinv item rfl
        obtain ⟨ha, hb⟩ := hitem
        intro i' hi'
        by_cases h1 : loan.estado = Estado.Pendiente
        · cases fe with
          | none =>
            simp [applyOp, approveLoan, h1] at hi'
            subst hi'
            exact ⟨ha, hb⟩
          | some f =>
            by_cases h2 : loan.cantidad_prestamo > item.cantidad_disponible
            · simp [applyOp, approveLoan, h1, h2] at hi'
              subst hi'
              exact ⟨ha, hb⟩
            · by_cases h3 : item.cantidad_disponible - loan.cantidad_prestamo < 0
              · simp [applyOp, approveLoan, approveStockPhase, h1, h2, h3] at hi'
                subst hi'
                exact ⟨ha, hb⟩
              · simp [applyOp, approveLoan, approveStockPhase, h1, h2, h3] at hi'
                subst hi'
                exact ⟨by simpa [Item.inv] using by omega, by simpa [Item.inv] using by omega⟩
        · simp [applyOp, approveLoan, h1] at hi'
          subst hi'
          exact ⟨ha, hb⟩
  | ret loanQ now =>
    cases loanQ with
    | none => simpa [applyOp, returnLoan] using hinv
    | some loan =>
      have hq : 0 < loan.cantidad_prestamo := hwf loan rfl
      cases itemQ with
      | none =>
        intro i' hi'
        by_cases h1 : loan.estado ≠ Estado.Aprobado ∧ loan.estado ≠ Estado.Aplazado
        · simp [applyOp, returnLoan, h1] at hi'
        · simp [applyOp, returnLoan, h1] at hi'
      | some item =>
        have hitem : item.inv := hinv item rfl
        obtain ⟨ha, hb⟩ := hitem
        intro i' hi'
        by_cases h1 : loan.estado ≠ Estado.Aprobado ∧ loan.estado ≠ Estado.Aplazado
        · simp [applyOp, returnLoan, h1] at hi'
          subst hi'
          exact ⟨ha, hb⟩
        · simp [applyOp, returnLoan, h1] at hi'
          subst hi'
          constructor <;>
            simp only [Item.inv] <;> split <;> omega

/-- Invariant preservation over any finite sequence of lifecycle operations. -/
theorem applyOps_inv (ops : List LoanOp) :
    ∀ itemQ : Option Item, (∀ op ∈ ops, op.WF) → (∀ i ∈ itemQ, i.inv) →
    ∀ i' ∈ applyOps itemQ ops, i'.inv := by
  induction ops with
  | nil =>
    intro itemQ _ hinv
    simpa [applyOps] using hinv
  | cons op ops ih =>
    intro itemQ hwf hinv
    have h1 := applyOp_inv itemQ op (hwf op (by simp)) hinv
    simpa [applyOps] using
      ih (applyOp itemQ op) (fun o ho => hwf o (by simp [ho])) h1

/-- C1: for any item satisfying `0 ≤ cantidad_disponible ≤ cantidad_total_stock`
and any finite sequence of `approveLoan` / `returnLoan` calls — each run against
arbitrary loan documents, date arguments and clocks, succeeding or failing —
the persisted item still satisfies the invariant. -/
theorem c1_stock_invariant (ops : List LoanOp) (hwf : ∀ op ∈ ops, op.WF)
    (item : Item) (hinv : item.inv) :
    ∀ i' ∈ applyOps (some item) ops, i'.inv :=
  applyOps_inv ops (some item) hwf (fun i hi => by
    cases Option.mem_some_iff.mp hi
    exact hinv)

/-- C1 witness: the invariant after approving then returning the scenario loan
on the scenario item. -/
theorem c1_stock_invariant_witness :
    Item.inv { nombre := "", cantidad_disponible := 3, cantidad_total_stock := 5 } :=
  c1_stock_invariant
    [LoanOp.approve (some demoLoan) (some 7) 5,
      LoanOp.ret (some { demoLoan with estado := Estado.Aprobado }) 9]
    (by
      intro op hop
      simp only [List.mem_cons, List.not_mem_nil, or_false] at hop
      rcases hop with rfl | rfl
      · intro l hl
        cases Option.mem_some_iff.mp hl
        decide
      · intro l hl
        cases Option.mem_some_iff.mp hl
        decide)
    demoItem (by decide)
    { nombre := "", cantidad_disponible := 3, cantidad_total_stock := 5 }
    (Option.mem_def.mpr (by decide))


/-- Unfolding of the attempt loop on a successful API call. -/
theorem sendEmailGo_ok (env : Nat → ApiOutcome) (a r : Nat) (id : String)
    (h : env a = ApiOutcome.ok id) :
    sendEmailGo env a r = ⟨⟨true, some id, none⟩, 1, []⟩ := by
  rw [sendEmailGo.eq_def, h]

/-- Unfolding of the attempt loop on a response-level API error. -/
theorem sendEmailGo_apiErr (env : Nat → ApiOutcome) (a r : Nat) (m : String)
    (h : env a = ApiOutcome.apiErr m) :
    sendEmailGo env a r = ⟨⟨false, none, some ("Resend error: " ++ m)⟩, 1, []⟩ := by
  rw [sendEmailGo.eq_def, h]

/-- Unfolding of the attempt loop on a non-retryable thrown error. -/
theorem sendEmailGo_thrown_stop (env : Nat → ApiOutcome) (a r : Nat)
    (sc : Option Nat) (c : Option String) (m : String)
    (h : env a = ApiOutcome.thrown sc c m)
    (hr : (ApiOutcome.thrown sc c m).retryable = false) :
    sendEmailGo env a r = ⟨⟨false, none, some m⟩, 1, []⟩ := by
  rw [sendEmailGo.eq_def, h]
  simp [hr]

/-- Unfolding of the attempt loop on a thrown error with no retries left. -/
theorem sendEmailGo_thrown_exhausted (env : Nat → ApiOutcome) (a : Nat)
    (sc : Option Nat) (c : Option String) (m : String)
    (h : env a = ApiOutcome.thrown sc c m) :
    sendEmailGo env a 0 = ⟨⟨false, none, some m⟩, 1, []⟩ := by
  cases hr : (ApiOutcome.thrown sc c m).retryable with
  | false => exact sendEmailGo_thrown_stop env a 0 sc c m h hr
  | true =>
    rw [sendEmailGo.eq_def, h]
    simp [hr]

/-- Unfolding of the attempt loop on a retryable thrown error with retries
left: sleep 2000 ms and recurse. -/
theorem sendEmailGo_thrown_retry (env : Nat → ApiOutcome) (a s : Nat)
    (sc : Option Nat) (c : Option String) (m : String)
    (h : env a = ApiOutcome.thrown sc c m)
    (hr : (ApiOutcome.thrown sc c m).retryable = true) :
    sendEmailGo env a (s + 1) =
      ⟨(sendEmailGo env (a + 1) s).result,
        (sendEmailGo env (a + 1) s).attempts + 1,
        2000 :: (sendEmailGo env (a + 1) s).delays⟩ := by
  rw [sendEmailGo.eq_def, h]
  simp [hr]

/-- The attempt loop always performs at least one API call. -/
theorem sendEmailGo_attempts_pos (env : Nat → ApiOutcome) (a r : Nat) :
    1 ≤ (sendEmailGo env a r).attempts := by
  cases henv : env a with
  | ok id => simp [sendEmailGo_ok env a r id henv]
  | apiErr m => simp [sendEmailGo_apiErr env a r m henv]
  | thrown sc c m =>
    cases hr : (ApiOutcome.thrown sc c m).retryable with
    | false => simp [sendEmailGo_thrown_stop env a r sc c m henv hr]
    | true =>
      cases r with
      | zero => simp [sendEmailGo_thrown_exhausted env a sc c m henv]
      | succ s => simp [sendEmailGo_thrown_retry env a s sc c m henv hr]

/-- The attempt loop performs at most `retries + 1` API calls. -/
theorem sendEmailGo_attempts_le (env : Nat → ApiOutcome) (r : Nat) :
    ∀ a, (sendEmailGo env a r).attempts ≤ r + 1 := by
  induction r with
  | zero =>
    intro a
    cases henv : env a with
    | ok id => simp [sendEmailGo_ok env a 0 id henv]
    | apiErr m => simp [sendEmailGo_apiErr env a 0 m henv]
    | thrown sc c m => simp [sendEmailGo_thrown_exhausted env a sc c m henv]
  | succ s ih =>
    intro a
    cases henv : env a with
    | ok id => simp [sendEmailGo_ok env a (s + 1) id henv]
    | apiErr m => simp [sendEmailGo_apiErr env a (s + 1) m henv]
    | thrown sc c m =>
      cases hr : (ApiOutcome.thrown sc c m).retryable with
      | false => simp [sendEmailGo_thrown_stop env a (s + 1) sc c m henv hr]
      | true =>
        have := ih (a + 1)
        simp [sendEmailGo_thrown_retry env a s sc c m henv hr]
        omega

/-- The attempt loop sleeps exactly 2000 ms between consecutive attempts. -/
theorem sendEmailGo_delays (env : Nat → ApiOutcome) (r : Nat) :
    ∀ a, (sendEmailGo env a r).delays =
      List.replicate ((sendEmailGo env a r).attempts - 1) 2000 := by
  induction r with
  | zero =>
    intro a
    cases henv : env a with
    | ok id => simp [sendEmailGo_ok env a 0 id henv]
    | apiErr m => simp [sendEmailGo_apiErr env a 0 m henv]
    | thrown sc c m => simp [sendEmailGo_thrown_exhausted env a sc c m henv]
  | succ s ih =>
    intro a
    cases henv : env a with
    | ok id => simp [sendEmailGo_ok env a (s + 1) id henv]
    | apiErr m => simp [sendEmailGo_apiErr env a (s + 1) m henv]
    | thrown sc c m =>
      cases hr : (ApiOutcome.thrown sc c m).retryable with
      | false => simp [sendEmailGo_thrown_stop env a (s + 1) sc c m henv hr]
      | true =>
        have hpos := sendEmailGo_attempts_pos env (a + 1) s
        have hd := ih (a + 1)
        simp only [sendEmailGo_thrown_retry env a s sc c m henv hr, hd]
        have h2 : (sendEmailGo env (a + 1) s).attempts + 1 - 1 =
            (sendEmailGo env (a + 1) s).attempts - 1 + 1 := by omega
        rw [h2, List.replicate_succ]

/-- Every attempt except the last one failed with a retryable error. -/
theorem sendEmailGo_retry_policy (env : Nat → ApiOutcome) (r : Nat) :
    ∀ a i, i + 1 < (sendEmailGo env a r).attempts →
      (env (a + i)).retryable = true := by
  induction r with
  | zero =>
    intro a i h
    have := sendEmailGo_attempts_le env 0 a
    omega
  | succ s ih =>
    intro a i h
    cases henv : env a with
    | ok id => simp [sendEmailGo_ok env a (s + 1) id henv] at h
    | apiErr m => simp [sendEmailGo_apiErr env a (s + 1) m henv] at h
    | thrown sc c m =>
      cases hr : (ApiOutcome.thrown sc c m).retryable with
      | false => simp [sendEmailGo_thrown_stop env a (s + 1) sc c m henv hr] at h
      | true =>
        simp only [sendEmailGo_thrown_retry env a s sc c m henv hr] at h
        cases i with
        | zero => simpa [henv] using hr
        | succ j =>
          have hj := ih (a + 1) j (by simp at h; omega)
          have hx : a + (j + 1) = a + 1 + j := by omega
          rw [hx]
          exact hj

/-- The attempt loop resolves with a message id on success and with an error
string on failure. -/
theorem sendEmailGo_result_shape (env : Nat → ApiOutcome) (r : Nat) :
    ∀ a, ((sendEmailGo env a r).result.success = true →
        ((sendEmailGo env a r).result.messageId).isSome = true ∧
        (sendEmailGo env a r).result.error = none) ∧
      ((sendEmailGo env a r).result.success = false →
        ((sendEmailGo env a r).result.error).isSome = true) := by
  induction r with
  | zero =>
    intro a
    cases henv : env a with
    | ok id => simp [sendEmailGo_ok env a 0 id henv]
    | apiErr m => simp [sendEmailGo_apiErr env a 0 m henv]
    | thrown sc c m => simp [sendEmailGo_thrown_exhausted env a sc c m henv]
  | succ s ih =>
    intro a
    cases henv : env a with
    | ok id => simp [sendEmailGo_ok env a (s + 1) id henv]
    | apiErr m => simp [sendEmailGo_apiErr env a (s + 1) m henv]
    | thrown sc c m =>
      cases hr : (ApiOutcome.thrown sc c m).retryable with
      | false => simp [sendEmailGo_thrown_stop env a (s + 1) sc c m henv hr]
      | true =>
        simp only [sendEmailGo_thrown_retry env a s sc c m henv hr]
        exact ih (a + 1)

/-- C9: `sendEmail` with the default two retries always resolves (success or
failure, with an error string recorded on failure, never a thrown exception),
performs at most 3 API send attempts, retries only after an attempt failed
with `statusCode 429` or `code ETIMEDOUT`, and sleeps a fixed 2000 ms between
consecutive attempts. -/
theorem c9_send_email_retries (toAddr : Option String) (hasApiKey : Bool)
    (env : Nat → ApiOutcome) :
    (sendEmail toAddr hasApiKey env 2).attempts ≤ 3 ∧
    (sendEmail toAddr hasApiKey env 2).delays =
      List.replicate ((sendEmail toAddr hasApiKey env 2).attempts - 1) 2000 ∧
    (∀ i, i + 1 < (sendEmail toAddr hasApiKey env 2).attempts →
      (env i).retryable = true) ∧
    ((sendEmail toAddr hasApiKey env 2).result.success = false →
      ((sendEmail toAddr hasApiKey env 2).result.error).isSome = true) ∧
    ((sendEmail toAddr hasApiKey env 2).result.success = true ∨
      (sendEmail toAddr hasApiKey env 2).result.success = false) := by
  match toAddr with
  | none => simp [sendEmail]
  | some s =>
    by_cases hc : strIncludes s "@"
    · cases hasApiKey with
      | false => simp [sendEmail, hc]
      | true =>
        have h0 : sendEmail (some s) true env 2 = sendEmailGo env 0 2 := by
          simp [sendEmail, hc]
        rw [h0]
        refine ⟨sendEmailGo_attempts_le env 2 0, sendEmailGo_delays env 2 0,
          ?_, (sendEmailGo_result_shape env 2 0).2, ?_⟩
        · intro i h
          have := sendEmailGo_retry_policy env 2 0 i h
          simpa using this
        · cases hsucc : (sendEmailGo env 0 2).result.success <;> simp
    · simp [sendEmail, hc]

/-- An environment in which every API call fails rate-limited, used by the C9
witness. -/
def env429 : Nat → ApiOutcome := fun _ => ApiOutcome.thrown (some 429) none "rate limited"

/-- C9 witness: `c9_send_email_retries` evaluated on a concrete valid address
under an always-rate-limited environment, discharging the inner hypotheses. -/
theorem c9_send_email_retries_witness :
    (env429 0).retryable = true ∧
    ((sendEmail (some "a@b.c") true env429 2).result.error).isSome = true ∧
    (sendEmail (some "a@b.c") true env429 2).attempts ≤ 3 :=
  ⟨(c9_send_email_retries (some "a@b.c") true env429).2.2.1 0 (by decide),
    (c9_send_email_retries (some "a@b.c") true env429).2.2.2.1 (by decide),
    (c9_send_email_retries (some "a@b.c") true env429).1⟩

/-- C10: `notifyAdminsNewLoan` never dispatches to an address containing
`demo.com` or `test.com` — any admin whose email contains either substring is
filtered out even when the address contains `'@'` — and when no admin survives
the filter it resolves with `success = false` and dispatches nothing. -/
theorem c10_admin_demo_filter (admins : List Admin) (sendOk : String → Bool) :
    (∀ e ∈ (notifyAdminsNewLoan admins sendOk).2,
      strIncludes e "demo.com" = false ∧ strIncludes e "test.com" = false ∧
        strIncludes e "@" = true) ∧
    (∀ a ∈ admins, ∀ e : String, a.email = some e →
      (strIncludes e "demo.com" = true ∨ strIncludes e "test.com" = true) →
      validAdmin a = false) ∧
    ((admins.filter validAdmin).isEmpty = true →
      (notifyAdminsNewLoan admins sendOk).1.success = false ∧
      (notifyAdminsNewLoan admins sendOk).2 = []) := by
  refine ⟨?_, ?_, ?_⟩
  · intro e he
    by_cases h0 : admins.isEmpty
    · simp [notifyAdminsNewLoan, h0] at he
    · by_cases h1 : (admins.filter validAdmin).isEmpty
      · simp [notifyAdminsNewLoan, h0, h1] at he
      · simp only [notifyAdminsNewLoan, h0, h1, Bool.false_eq_true, if_false,
          List.mem_map] at he
        obtain ⟨a, hmem, heq⟩ := he
        have hva : validAdmin a = true := (List.mem_filter.mp hmem).2
        cases hmail : a.email with
        | none => simp [validAdmin, hmail] at hva
        | some e' =>
          simp only [validAdmin, hmail, Bool.and_eq_true, Bool.not_eq_true'] at hva
          obtain ⟨⟨hat, hdemo⟩, htest⟩ := hva
          have he' : e = e' := by
            rw [← heq, hmail]
            rfl
          subst he'
          exact ⟨hdemo, htest, hat⟩
  · intro a _ e he hor
    simp only [validAdmin, he]
    rcases hor with h | h <;> simp [h]
  · intro h1
    by_cases h0 : admins.isEmpty
    · simp [notifyAdminsNewLoan, h0]
    · simp [notifyAdminsNewLoan, h0, h1]

/-- C10 witness: a syntactically valid demo-domain admin is filtered out, and
with only such admins the notification resolves unsuccessfully with nothing
dispatched. -/
theorem c10_admin_demo_filter_witness :
    validAdmin ⟨some "a@demo.com"⟩ = false ∧
    (notifyAdminsNewLoan [⟨some "a@demo.com"⟩] (fun _ => true)).1.success = false ∧
    (notifyAdminsNewLoan [⟨some "a@demo.com"⟩] (fun _ => true)).2 = [] :=
  ⟨(c10_admin_demo_filter [⟨some "a@demo.com"⟩] (fun _ => true)).2.1
      ⟨some "a@demo.com"⟩ (by simp) "a@demo.com" rfl (Or.inl (by decide)),
    ((c10_admin_demo_filter [⟨some "a@demo.com"⟩] (fun _ => true)).2.2
      (by decide)).1,
    ((c10_admin_demo_filter [⟨some "a@demo.com"⟩] (fun _ => true)).2.2
      (by decide)).2⟩
